import Mathlib

/-!
Verification of the wapm-shell command-runner (pipeline orchestrator).

The development embeds `src/examples/wapm-shell/services/command-runner/command-runner.ts`:
the AST-to-spec builder `getCommandOptionsFromAST` (with its inner `redirectTask`) and the
`CommandRunner` class (`runCommand`, `tryToSpawnProcess`, `spawnProcess`,
`processDataCallback`, `processEndCallback`, `processErrorCallback`, `kill`).

Modelling decisions, all read off the source:
* The resolver (`commandCache.getWasmModuleForCommandName`) is an external collaborator;
  it is a parameter `resolve : String → Except String WasmModule`, the error string being
  the `toString` of the rejection value.
* `TextDecoder("utf-8").decode` is an external browser API; it is a parameter
  `decode : Bytes → String`.
* The worker spawn path is dead code (`... && Atomics && false` in `spawnProcess`),
  so spawned objects come from `spawnProcessAsService` and carry no worker; the
  `hasWorker` field is kept so that `kill`'s per-object worker termination is modelled.
* Side effects (xterm writes, the completion callback, stdin chunks sent to a live
  process, worker termination, process start) are reified as an `Effect` list returned
  next to the new state.
* JavaScript's `length - 1` on an empty array is `-1` and every index comparison
  `i < length - 1` with `i ≥ 0` is then false; `Nat` truncated subtraction gives the
  same comparison results, so `Nat` is used for indices.
-/

namespace CommandRunner

/-- Opaque reference to a compiled wasm artifact returned by the resolver. -/
structure WasmModule where
  id : Nat
deriving DecidableEq, Repr

mutual

/-- A parsed command node of the shell AST: command name, argument values,
environment bindings and the redirect list. -/
inductive Ast : Type where
  | mk (command : String) (args : List String) (env : List (String × String))
      (redirects : List Redirect)

/-- A redirect node: its `type` string (the source compares it against "pipe")
and its target command. -/
inductive Redirect : Type where
  | mk (type : String) (command : Ast)

end

/-- One stage's execution specification, as produced by `getCommandOptionsFromAST`. -/
structure CommandOptions where
  args : List String
  env : List (String × String)
  module : WasmModule
deriving DecidableEq, Repr

mutual

/-- Embeds `getCommandOptionsFromAST`: the current node's spec is unshifted onto the
specs built from the first pipe redirect; the redirect is traversed before the current
command name is resolved (matching the promise chain `redirectTask().then(getWasmModuleTask)`). -/
def getCommandOptionsFromAST (resolve : String → Except String WasmModule) :
    Ast → Except String (List CommandOptions)
  | Ast.mk command args env redirects =>
    match redirectTask resolve redirects with
    | Except.error e => Except.error e
    | Except.ok redirected =>
      match resolve command with
      | Except.error e => Except.error e
      | Except.ok m =>
        Except.ok ({ args := command :: args, env := env, module := m } :: redirected)

/-- Embeds the inner `redirectTask`: only `redirects[0]` is examined, and only when its
type is "pipe" does the builder recurse into the redirect's command. -/
def redirectTask (resolve : String → Except String WasmModule) :
    List Redirect → Except String (List CommandOptions)
  | [] => Except.ok []
  | Redirect.mk ty target :: _ =>
    if ty = "pipe" then getCommandOptionsFromAST resolve target else Except.ok []

end

/-- Byte chunks as produced/consumed by processes. -/
abbrev Bytes := List Nat

/-- A record in `spawnedProcessObjects`: the stage index it was spawned for, the
initial stdin passed at construction (`none` models the `undefined` argument), and
whether a worker handle was attached (always `false` on the live service path). -/
structure SpawnedProcessObject where
  index : Nat
  initialStdin : Option Bytes
  hasWorker : Bool
deriving DecidableEq, Repr

/-- The mutable fields of the `CommandRunner` class. -/
structure RunnerState where
  commandOptionsForProcessesToRun : List CommandOptions
  spawnedProcessObjects : List SpawnedProcessObject
  initialStdinDataForNextProcess : Bytes
  isRunning : Bool
deriving DecidableEq, Repr

/-- The fields as set by the constructor. -/
def initialState : RunnerState :=
  { commandOptionsForProcessesToRun := []
    spawnedProcessObjects := []
    initialStdinDataForNextProcess := []
    isRunning := false }

/-- Observable side effects of one orchestrator operation, in order of occurrence. -/
inductive Effect : Type where
  | termWrite (text : String)
  | commandEnd
  | stdinChunk (stageIndex : Nat) (data : Bytes)
  | workerTerminate (stageIndex : Nat)
  | processStart (stageIndex : Nat)
deriving DecidableEq, Repr

/-- Embeds `spawnProcess`: the new process object receives the pending buffer as its
initial stdin when non-empty (`undefined` otherwise), the buffer is then cleared (the
source guards the clear on non-emptiness, which is equivalent), the object is pushed
onto `spawnedProcessObjects`, and the process is started. -/
def spawnProcess (i : Nat) (s : RunnerState) : RunnerState × List Effect :=
  let stdinOpt : Option Bytes :=
    if s.initialStdinDataForNextProcess.length > 0
    then some s.initialStdinDataForNextProcess else none
  let newBuf : Bytes :=
    if s.initialStdinDataForNextProcess.length > 0
    then [] else s.initialStdinDataForNextProcess
  ({ s with
      initialStdinDataForNextProcess := newBuf
      spawnedProcessObjects :=
        s.spawnedProcessObjects ++ [⟨i, stdinOpt, false⟩] },
   [Effect.processStart i])

/-- Embeds `tryToSpawnProcess`: spawn only below the ceiling of 2 and in range. -/
def tryToSpawnProcess (i : Nat) (s : RunnerState) : RunnerState × List Effect :=
  if s.spawnedProcessObjects.length < 2 ∧
      i < s.commandOptionsForProcessesToRun.length
  then spawnProcess i s
  else (s, [])

/-- Line-feed to carriage-return/line-feed rewriting on a character list,
embedding `dataString.replace(/\n/g, "\r\n")`. -/
def replaceLF : List Char → List Char
  | [] => []
  | c :: rest =>
    if c = '\n' then '\r' :: '\n' :: replaceLF rest else c :: replaceLF rest

/-- The same rewriting on strings. -/
def translateNewlines (str : String) : String :=
  String.mk (replaceLF str.data)

/-- Embeds `processDataCallback`: a non-last stage's chunk is forwarded to the process
at position 1 when two processes are live, and otherwise appended to the pending
buffer; the last stage's chunk is decoded and written to the terminal with newline
translation. -/
def processDataCallback (decode : Bytes → String) (i : Nat) (data : Bytes)
    (s : RunnerState) : RunnerState × List Effect :=
  if i < s.commandOptionsForProcessesToRun.length - 1 then
    if s.spawnedProcessObjects.length > 1 then
      match s.spawnedProcessObjects[1]? with
      | some p => (s, [Effect.stdinChunk p.index data])
      | none => (s, [])
    else
      ({ s with initialStdinDataForNextProcess :=
          s.initialStdinDataForNextProcess ++ data }, [])
  else
    (s, [Effect.termWrite (translateNewlines (decode data))])

/-- Embeds `processEndCallback` on the service path (no worker argument): shift the
finished object off the live list, then either advance the pipeline or finish the run. -/
def processEndCallback (i : Nat) (s : RunnerState) : RunnerState × List Effect :=
  let s1 := { s with spawnedProcessObjects := s.spawnedProcessObjects.tail }
  if i < s1.commandOptionsForProcessesToRun.length - 1 then
    tryToSpawnProcess (i + 1) s1
  else
    ({ s1 with isRunning := false }, [Effect.commandEnd])

/-- The `args[0]` of spec `i`, as interpolated into the runtime diagnostic. -/
def stageArgZero (s : RunnerState) (i : Nat) : String :=
  match s.commandOptionsForProcessesToRun[i]? with
  | some opts => opts.args.headD ""
  | none => ""

/-- Embeds `kill`: a no-op while not running; otherwise terminate each live object's
worker (none exist on the service path), clear the spec and live collections, mark
not-running, and invoke the completion callback. The pending stdin buffer is not
touched. -/
def kill (s : RunnerState) : RunnerState × List Effect :=
  if s.isRunning then
    ({ s with
        commandOptionsForProcessesToRun := []
        spawnedProcessObjects := []
        isRunning := false },
     (s.spawnedProcessObjects.filterMap fun p =>
        if p.hasWorker then some (Effect.workerTerminate p.index) else none)
       ++ [Effect.commandEnd])
  else
    (s, [])

/-- Embeds `processErrorCallback`: write the stage diagnostic, call `kill`, then
invoke the completion callback once more. -/
def processErrorCallback (i : Nat) (error : String) (s : RunnerState) :
    RunnerState × List Effect :=
  let diag := "Program " ++ stageArgZero s i ++ ": " ++ error ++ "\r\n"
  let killed := kill s
  (killed.1, Effect.termWrite diag :: killed.2 ++ [Effect.commandEnd])

/-- One top-level statement of the parse result; the source only checks whether
its `type` is "command". -/
inductive Statement : Type where
  | command (ast : Ast)
  | other (type : String)

/-- The body of `runCommand`'s try block: the statement-count check, the
statement-type check, and the spec build (whose resolver failures are therefore
caught by the same catch). An empty parse result makes `commandAst[0].type` throw
a TypeError, which the same catch also receives. -/
def runCommandTryBlock (resolve : String → Except String WasmModule)
    (parsed : List Statement) : Except String (List CommandOptions) :=
  if parsed.length > 1 then
    Except.error "Error: Only one command permitted"
  else
    match parsed with
    | Statement.command ast :: _ => getCommandOptionsFromAST resolve ast
    | Statement.other _ :: _ => Except.error "Error: Only commands allowed"
    | [] => Except.error "TypeError: commandAst[0] is undefined"

/-- Embeds `runCommand` after the `parse` call succeeded (a throw inside `parse`
itself happens before the try block and aborts the method with no effect): on any
try-block failure write the parse-error diagnostic and invoke the completion
callback; on success store the specs, mark running, and try to spawn stage 0. -/
def runCommand (resolve : String → Except String WasmModule)
    (parsed : List Statement) (s : RunnerState) : RunnerState × List Effect :=
  match runCommandTryBlock resolve parsed with
  | Except.error e =>
    (s, [Effect.termWrite ("wapm shell: parse error (" ++ e ++ ")\r\n"),
         Effect.commandEnd])
  | Except.ok opts =>
    tryToSpawnProcess 0
      { s with commandOptionsForProcessesToRun := opts, isRunning := true }



/-- A resolver that succeeds on every command name with artifact `f c`. -/
def okResolve (f : String → WasmModule) : String → Except String WasmModule :=
  fun c => Except.ok (f c)

/-- The AST of the pipeline `hd | tl₀ | tl₁ | ...`: each node carries one
pipe-type redirect to the rest of the chain. -/
def pipeChainAst : String × List String → List (String × List String) → Ast
  | (c, as), [] => Ast.mk c as [] []
  | (c, as), next :: rest =>
    Ast.mk c as [] [Redirect.mk "pipe" (pipeChainAst next rest)]

/-- How often the completion callback occurs in an effect list. -/
def countCommandEnd (effs : List Effect) : Nat :=
  effs.countP fun e =>
    match e with
    | Effect.commandEnd => true
    | _ => false

/-- Iterating `processDataCallback` for stage `i` over a list of chunks, keeping
only the state (the chunks a stage produces before its consumer spawns). -/
def feedChunks (decode : Bytes → String) (i : Nat) (ds : List Bytes)
    (s : RunnerState) : RunnerState :=
  ds.foldl (fun st d => (processDataCallback decode i d st).1) s

/-- A UTF-8 decode usable on concrete ASCII byte lists, standing in for the
external `TextDecoder` in concrete instantiations. -/
def asciiDecode : Bytes → String :=
  fun bs => String.mk (bs.map Char.ofNat)

/-- One orchestrator entry point firing, relating the state before to the state after. -/
inductive Step (resolve : String → Except String WasmModule)
    (decode : Bytes → String) : RunnerState → RunnerState → Prop where
  | runCmd (parsed : List Statement) (s : RunnerState) :
      Step resolve decode s (runCommand resolve parsed s).1
  | dataCb (i : Nat) (data : Bytes) (s : RunnerState) :
      Step resolve decode s (processDataCallback decode i data s).1
  | endCb (i : Nat) (s : RunnerState) :
      Step resolve decode s (processEndCallback i s).1
  | errorCb (i : Nat) (e : String) (s : RunnerState) :
      Step resolve decode s (processErrorCallback i e s).1
  | killOp (s : RunnerState) :
      Step resolve decode s (kill s).1

/-- States reachable from the constructor state through orchestrator operations. -/
inductive Reachable (resolve : String → Except String WasmModule)
    (decode : Bytes → String) : RunnerState → Prop where
  | init : Reachable resolve decode initialState
  | step {s s2 : RunnerState} : Reachable resolve decode s →
      Step resolve decode s s2 → Reachable resolve decode s2

/-- A process-callback or kill step: what can happen inside one run after
`runCommand` returned (no second `runCommand`). -/
inductive CallbackStep (decode : Bytes → String) :
    RunnerState → RunnerState → Prop where
  | dataCb (i : Nat) (data : Bytes) (s : RunnerState) :
      CallbackStep decode s (processDataCallback decode i data s).1
  | endCb (i : Nat) (s : RunnerState) :
      CallbackStep decode s (processEndCallback i s).1
  | errorCb (i : Nat) (e : String) (s : RunnerState) :
      CallbackStep decode s (processErrorCallback i e s).1
  | killOp (s : RunnerState) :
      CallbackStep decode s (kill s).1

/-- States a single run visits: the state right after `runCommand` ran on a fresh
orchestrator, closed under callback and kill steps. -/
inductive RunReachable (resolve : String → Except String WasmModule)
    (decode : Bytes → String) (parsed : List Statement) : RunnerState → Prop where
  | start : RunReachable resolve decode parsed
      (runCommand resolve parsed initialState).1
  | step {s s2 : RunnerState} : RunReachable resolve decode parsed s →
      CallbackStep decode s s2 → RunReachable resolve decode parsed s2

lemma getCommandOptionsFromAST_pipeChain (f : String → WasmModule)
    (hd : String × List String) (tl : List (String × List String)) :
    getCommandOptionsFromAST (okResolve f) (pipeChainAst hd tl) =
      Except.ok ((hd :: tl).map fun p =>
        { args := p.1 :: p.2, env := [], module := f p.1 }) := by
  induction tl generalizing hd with
  | nil =>
    obtain ⟨c, as⟩ := hd
    simp [pipeChainAst, getCommandOptionsFromAST, redirectTask, okResolve]
  | cons next rest ih =>
    obtain ⟨c, as⟩ := hd
    simp [pipeChainAst, getCommandOptionsFromAST, redirectTask, okResolve, ih]

/-- C3: for the pipeline `hd | tl₀ | ... | tl_{k-1}` (k pipes), the builder returns
exactly `k+1` specs, ordered left-to-right as written, each spec's argument sequence
being that stage's command name followed by its arguments; and any single command
with no redirects yields exactly the one spec `[command :: args]`. -/
theorem pipeChain_specs_ordered (f : String → WasmModule)
    (hd : String × List String) (tl : List (String × List String)) :
    (getCommandOptionsFromAST (okResolve f) (pipeChainAst hd tl) =
      Except.ok ((hd :: tl).map fun p =>
        { args := p.1 :: p.2, env := [], module := f p.1 }))
    ∧ ((hd :: tl).map fun p =>
        ({ args := p.1 :: p.2, env := [], module := f p.1 } : CommandOptions)).length
        = tl.length + 1
    ∧ ∀ c as env, getCommandOptionsFromAST (okResolve f) (Ast.mk c as env []) =
        Except.ok [{ args := c :: as, env := env, module := f c }] := by
  refine ⟨getCommandOptionsFromAST_pipeChain f hd tl, by simp, ?_⟩
  intro c as env
  simp [getCommandOptionsFromAST, redirectTask, okResolve]

/-- C10: a first redirect whose type is not "pipe" is silently ignored (the result is
the same as with no redirects at all), and every redirect after the first is never
examined (the result only depends on the first redirect). -/
theorem non_pipe_redirects_ignored (resolve : String → Except String WasmModule)
    (c : String) (as : List String) (env : List (String × String))
    (t : String) (ht : t ≠ "pipe") (tgt : Ast) (rs : List Redirect) :
    (getCommandOptionsFromAST resolve (Ast.mk c as env (Redirect.mk t tgt :: rs)) =
      getCommandOptionsFromAST resolve (Ast.mk c as env []))
    ∧ ∀ r rs2, getCommandOptionsFromAST resolve (Ast.mk c as env (r :: rs2)) =
        getCommandOptionsFromAST resolve (Ast.mk c as env [r]) := by
  constructor
  · simp [getCommandOptionsFromAST, redirectTask, ht]
  · intro r rs2
    obtain ⟨ty, target⟩ := r
    simp [getCommandOptionsFromAST, redirectTask]

/-- Witness for C10 at a concrete file-type redirect followed by a pipe redirect. -/
theorem non_pipe_redirects_ignored_witness :
    ("file" ≠ "pipe")
    ∧ getCommandOptionsFromAST (okResolve fun _ => ⟨0⟩)
        (Ast.mk "a" [] []
          [Redirect.mk "file" (Ast.mk "b" [] [] []),
           Redirect.mk "pipe" (Ast.mk "c" [] [] [])]) =
      getCommandOptionsFromAST (okResolve fun _ => ⟨0⟩) (Ast.mk "a" [] [] []) :=
  ⟨by decide,
   (non_pipe_redirects_ignored (okResolve fun _ => ⟨0⟩) "a" [] [] "file" (by decide)
      (Ast.mk "b" [] [] []) [Redirect.mk "pipe" (Ast.mk "c" [] [] [])]).1⟩

lemma spawnProcess_length (i : Nat) (s : RunnerState) :
    ((spawnProcess i s).1).spawnedProcessObjects.length
      = s.spawnedProcessObjects.length + 1 := by
  simp [spawnProcess]

lemma tryToSpawnProcess_le_two (i : Nat) (s : RunnerState)
    (h : s.spawnedProcessObjects.length ≤ 2) :
    ((tryToSpawnProcess i s).1).spawnedProcessObjects.length ≤ 2 := by
  unfold tryToSpawnProcess
  split_ifs with hc
  · have := spawnProcess_length i s
    omega
  · exact h

lemma tryToSpawnProcess_le_one (i : Nat) (s : RunnerState)
    (h : s.spawnedProcessObjects.length = 0) :
    ((tryToSpawnProcess i s).1).spawnedProcessObjects.length ≤ 1 := by
  unfold tryToSpawnProcess
  split_ifs with hc
  · have := spawnProcess_length i s
    omega
  · show s.spawnedProcessObjects.length ≤ 1
    omega

lemma processDataCallback_spawned (decode : Bytes → String) (i : Nat) (d : Bytes)
    (s : RunnerState) :
    ((processDataCallback decode i d s).1).spawnedProcessObjects
      = s.spawnedProcessObjects := by
  unfold processDataCallback
  split
  · split
    · split <;> rfl
    · rfl
  · rfl

lemma processErrorCallback_state (i : Nat) (e : String) (s : RunnerState) :
    (processErrorCallback i e s).1 = (kill s).1 := rfl

lemma kill_state (s : RunnerState) :
    (kill s).1 = s ∨ ((kill s).1).spawnedProcessObjects = [] := by
  unfold kill
  split_ifs
  · right
    rfl
  · left
    rfl

lemma processEndCallback_le_two (i : Nat) (s : RunnerState)
    (h : s.spawnedProcessObjects.length ≤ 2) :
    ((processEndCallback i s).1).spawnedProcessObjects.length ≤ 2 := by
  simp only [processEndCallback]
  split_ifs with hc
  · apply tryToSpawnProcess_le_two
    simp
    omega
  · simp
    omega

lemma processEndCallback_le_one (i : Nat) (s : RunnerState)
    (h : s.spawnedProcessObjects.length ≤ 1) :
    ((processEndCallback i s).1).spawnedProcessObjects.length ≤ 1 := by
  simp only [processEndCallback]
  split_ifs with hc
  · apply tryToSpawnProcess_le_one
    simp
    omega
  · simp
    omega

lemma runCommand_le_two (resolve : String → Except String WasmModule)
    (parsed : List Statement) (s : RunnerState)
    (h : s.spawnedProcessObjects.length ≤ 2) :
    ((runCommand resolve parsed s).1).spawnedProcessObjects.length ≤ 2 := by
  unfold runCommand
  cases hrb : runCommandTryBlock resolve parsed with
  | error e =>
    simp only [hrb]
    exact h
  | ok opts =>
    simp only [hrb]
    exact tryToSpawnProcess_le_two _ _ (by simpa using h)

lemma runCommand_from_init_le_one (resolve : String → Except String WasmModule)
    (parsed : List Statement) :
    ((runCommand resolve parsed initialState).1).spawnedProcessObjects.length ≤ 1 := by
  unfold runCommand
  cases hrb : runCommandTryBlock resolve parsed with
  | error e =>
    simp only [hrb]
    simp [initialState]
  | ok opts =>
    simp only [hrb]
    exact tryToSpawnProcess_le_one _ _ (by simp [initialState])

lemma step_preserves_le_two {resolve : String → Except String WasmModule}
    {decode : Bytes → String} {s s2 : RunnerState}
    (hstep : Step resolve decode s s2)
    (h : s.spawnedProcessObjects.length ≤ 2) :
    s2.spawnedProcessObjects.length ≤ 2 := by
  cases hstep with
  | runCmd parsed s => exact runCommand_le_two resolve parsed s h
  | dataCb i d s =>
    rw [processDataCallback_spawned]
    exact h
  | endCb i s => exact processEndCallback_le_two i s h
  | errorCb i e s =>
    rw [processErrorCallback_state]
    rcases kill_state s with h1 | h1
    · rw [h1]
      exact h
    · rw [h1]
      simp
  | killOp s =>
    rcases kill_state s with h1 | h1
    · rw [h1]
      exact h
    · rw [h1]
      simp

lemma callbackStep_preserves_le_one {decode : Bytes → String} {s s2 : RunnerState}
    (hstep : CallbackStep decode s s2)
    (h : s.spawnedProcessObjects.length ≤ 1) :
    s2.spawnedProcessObjects.length ≤ 1 := by
  cases hstep with
  | dataCb i d s =>
    rw [processDataCallback_spawned]
    exact h
  | endCb i s => exact processEndCallback_le_one i s h
  | errorCb i e s =>
    rw [processErrorCallback_state]
    rcases kill_state s with h1 | h1
    · rw [h1]
      exact h
    · rw [h1]
      simp
  | killOp s =>
    rcases kill_state s with h1 | h1
    · rw [h1]
      exact h
    · rw [h1]
      simp

/-- C4: the concurrency ceiling: every state reachable from the constructor state
through orchestrator operations has at most 2 live process objects, and every
operation preserves this bound. -/
theorem live_units_le_two (resolve : String → Except String WasmModule)
    (decode : Bytes → String) (s : RunnerState)
    (h : Reachable resolve decode s) :
    s.spawnedProcessObjects.length ≤ 2 := by
  induction h with
  | init => simp [initialState]
  | step _ hstep ih => exact step_preserves_le_two hstep ih

/-- Witness for C4 at the constructor state. -/
theorem live_units_le_two_witness :
    initialState.spawnedProcessObjects.length ≤ 2 :=
  live_units_le_two (okResolve fun _ => ⟨0⟩) asciiDecode initialState Reachable.init

/-- C9: within a single run (no second `runCommand`), at most one process object is
ever live — the spawn-ahead call in `spawnProcess` is commented out and the next
stage is only spawned from `processEndCallback` after the previous was shifted off —
so a non-last stage's data never finds a second live process: the streaming-handoff
branch is dead and every inter-stage chunk is appended to the pending buffer. -/
theorem single_run_at_most_one_live_unit (resolve : String → Except String WasmModule)
    (decode : Bytes → String) (parsed : List Statement) (s : RunnerState)
    (h : RunReachable resolve decode parsed s) :
    s.spawnedProcessObjects.length ≤ 1
    ∧ ∀ i d, i < s.commandOptionsForProcessesToRun.length - 1 →
        processDataCallback decode i d s =
          ({ s with initialStdinDataForNextProcess :=
              s.initialStdinDataForNextProcess ++ d }, []) := by
  have hlen : s.spawnedProcessObjects.length ≤ 1 := by
    induction h with
    | start => exact runCommand_from_init_le_one resolve parsed
    | step _ hstep ih => exact callbackStep_preserves_le_one hstep ih
  refine ⟨hlen, fun i d hi => ?_⟩
  unfold processDataCallback
  rw [if_pos hi, if_neg (by omega)]

/-- Witness for C9 at the state right after spawning the single stage of `a`. -/
theorem single_run_at_most_one_live_unit_witness :
    ((runCommand (okResolve fun _ => ⟨0⟩)
        [Statement.command (Ast.mk "a" [] [] [])]
        initialState).1).spawnedProcessObjects.length ≤ 1 :=
  (single_run_at_most_one_live_unit (okResolve fun _ => ⟨0⟩) asciiDecode
    [Statement.command (Ast.mk "a" [] [] [])] _ RunReachable.start).1

/-- A demonstration artifact reference. -/
def demoModule : WasmModule := ⟨0⟩

/-- The spec the builder produces for the bare command `a`. -/
def specA : CommandOptions := { args := ["a"], env := [], module := demoModule }

/-- The spec the builder produces for the bare command `b`. -/
def specB : CommandOptions := { args := ["b"], env := [], module := demoModule }

/-- The runner state right after `runCommand` spawned stage 0 of the single command `a`. -/
def runningDemoState : RunnerState :=
  { commandOptionsForProcessesToRun := [specA]
    spawnedProcessObjects := [⟨0, none, false⟩]
    initialStdinDataForNextProcess := []
    isRunning := true }

/-- A mid-run state of the pipeline `a | b`: stage 0 live, one byte already buffered
for the unspawned stage 1. -/
def pipelineDemoState : RunnerState :=
  { commandOptionsForProcessesToRun := [specA, specB]
    spawnedProcessObjects := [⟨0, none, false⟩]
    initialStdinDataForNextProcess := [0]
    isRunning := true }

/-- A resolver that rejects every command name. -/
def failingResolve : String → Except String WasmModule :=
  fun _ => Except.error "SpawnError: command not found"

lemma countCommandEnd_append (l1 l2 : List Effect) :
    countCommandEnd (l1 ++ l2) = countCommandEnd l1 + countCommandEnd l2 := by
  simp [countCommandEnd, List.countP_append]

lemma countCommandEnd_terminations (l : List SpawnedProcessObject) :
    countCommandEnd (l.filterMap fun p =>
      if p.hasWorker then some (Effect.workerTerminate p.index) else none) = 0 := by
  induction l with
  | nil => rfl
  | cons p rest ih =>
    by_cases hw : p.hasWorker
    · simpa [List.filterMap_cons, hw, countCommandEnd, List.countP_cons] using ih
    · simpa [List.filterMap_cons, hw] using ih

lemma countCommandEnd_kill_running (s : RunnerState) (h : s.isRunning = true) :
    countCommandEnd (kill s).2 = 1 := by
  unfold kill
  rw [if_pos h]
  rw [countCommandEnd_append _ [Effect.commandEnd], countCommandEnd_terminations]
  rfl

lemma countCommandEnd_kill_idle (s : RunnerState) (h : s.isRunning = false) :
    countCommandEnd (kill s).2 = 0 := by
  unfold kill
  rw [if_neg (by simp [h])]
  rfl

lemma countCommandEnd_termWrite_cons (t2 : String) (l : List Effect) :
    countCommandEnd (Effect.termWrite t2 :: l) = countCommandEnd l := by
  simp [countCommandEnd, List.countP_cons]

lemma countCommandEnd_tryToSpawn (i : Nat) (s : RunnerState) :
    countCommandEnd (tryToSpawnProcess i s).2 = 0 := by
  unfold tryToSpawnProcess
  split_ifs <;> rfl

lemma processDataCallback_buffer_branch (decode : Bytes → String) (i : Nat)
    (d : Bytes) (s : RunnerState)
    (hlive : s.spawnedProcessObjects.length ≤ 1)
    (hi : i < s.commandOptionsForProcessesToRun.length - 1) :
    processDataCallback decode i d s =
      ({ s with initialStdinDataForNextProcess :=
          s.initialStdinDataForNextProcess ++ d }, []) := by
  unfold processDataCallback
  rw [if_pos hi, if_neg (by omega)]

/-- C8: `kill` while idle changes no field and produces no effect; `kill` while
running clears the spec and live collections, marks not-running, leaves the pending
stdin buffer as it was, fires the completion callback exactly once, and emits a
worker termination for every live object holding a worker. -/
theorem kill_idle_noop_and_running_cleanup (s : RunnerState) :
    (s.isRunning = false → kill s = (s, []))
    ∧ (s.isRunning = true →
        ((kill s).1).commandOptionsForProcessesToRun = []
        ∧ ((kill s).1).spawnedProcessObjects = []
        ∧ ((kill s).1).isRunning = false
        ∧ ((kill s).1).initialStdinDataForNextProcess
            = s.initialStdinDataForNextProcess
        ∧ countCommandEnd (kill s).2 = 1
        ∧ ∀ p ∈ s.spawnedProcessObjects, p.hasWorker = true →
            Effect.workerTerminate p.index ∈ (kill s).2) := by
  constructor
  · intro h
    unfold kill
    rw [if_neg (by simp [h])]
  · intro h
    have hk : kill s =
        ({ s with
            commandOptionsForProcessesToRun := []
            spawnedProcessObjects := []
            isRunning := false },
         (s.spawnedProcessObjects.filterMap fun p =>
            if p.hasWorker then some (Effect.workerTerminate p.index) else none)
           ++ [Effect.commandEnd]) := by
      unfold kill
      rw [if_pos h]
    refine ⟨by rw [hk], by rw [hk], by rw [hk], by rw [hk],
      countCommandEnd_kill_running s h, ?_⟩
    intro p hp hw
    rw [hk]
    refine List.mem_append.mpr (Or.inl ?_)
    exact List.mem_filterMap.mpr ⟨p, hp, by simp [hw]⟩

/-- Witness for C8: `kill` on the constructor state and on a running one-stage state. -/
theorem kill_idle_noop_and_running_cleanup_witness :
    kill initialState = (initialState, [])
    ∧ countCommandEnd (kill runningDemoState).2 = 1 :=
  ⟨(kill_idle_noop_and_running_cleanup initialState).1 rfl,
   ((kill_idle_noop_and_running_cleanup runningDemoState).2 rfl).2.2.2.2.1⟩

/-- C1 counterexample: from the state a real run of the single command `a` reaches
(stage 0 live, orchestrator running), a reported runtime error fires the completion
callback twice — once inside `kill` and once more at the end of
`processErrorCallback` — so the callback is not invoked exactly once on every
terminating path. -/
theorem commandEnd_double_fire_on_error :
    (runCommand (okResolve fun _ => demoModule)
        [Statement.command (Ast.mk "a" [] [] [])] initialState).1 = runningDemoState
    ∧ countCommandEnd
        (processErrorCallback 0 "RuntimeError: unreachable" runningDemoState).2 ≠ 1 := by
  refine ⟨by rfl, by decide⟩

/-- C1 amended: the completion callback fires exactly once on the parse-failure
path, exactly once when the final stage's end callback runs, exactly once on `kill`
while running and never on `kill` while idle, zero times on data chunks and
non-final stage ends, but twice — once via `kill`, once directly — when a stage
reports a runtime error while the orchestrator is running. -/
theorem commandEnd_counts_per_termination_path
    (resolve : String → Except String WasmModule) (decode : Bytes → String)
    (parsed : List Statement) (msg e : String) (i : Nat) (d : Bytes)
    (s t u v w : RunnerState) :
    (runCommandTryBlock resolve parsed = Except.error msg →
      countCommandEnd (runCommand resolve parsed s).2 = 1)
    ∧ (∀ opts, runCommandTryBlock resolve parsed = Except.ok opts →
        countCommandEnd (runCommand resolve parsed s).2 = 0)
    ∧ (¬ i < t.commandOptionsForProcessesToRun.length - 1 →
        countCommandEnd (processEndCallback i t).2 = 1)
    ∧ (i < t.commandOptionsForProcessesToRun.length - 1 →
        countCommandEnd (processEndCallback i t).2 = 0)
    ∧ countCommandEnd (processDataCallback decode i d w).2 = 0
    ∧ (u.isRunning = true → countCommandEnd (kill u).2 = 1)
    ∧ (u.isRunning = false → countCommandEnd (kill u).2 = 0)
    ∧ (v.isRunning = true → countCommandEnd (processErrorCallback i e v).2 = 2) := by
  refine ⟨?_, ?_, ?_, ?_, ?_, ?_, ?_, ?_⟩
  · intro h
    unfold runCommand
    rw [h]
    rfl
  · intro opts h
    unfold runCommand
    rw [h]
    exact countCommandEnd_tryToSpawn 0 _
  · intro h
    simp only [processEndCallback]
    rw [if_neg h]
    rfl
  · intro h
    simp only [processEndCallback]
    rw [if_pos h]
    exact countCommandEnd_tryToSpawn _ _
  · unfold processDataCallback
    split
    · split
      · split <;> rfl
      · rfl
    · rfl
  · exact countCommandEnd_kill_running u
  · exact countCommandEnd_kill_idle u
  · intro h
    have h1 := countCommandEnd_kill_running v h
    simp only [processErrorCallback]
    rw [countCommandEnd_append, countCommandEnd_termWrite_cons, h1]
    rfl

/-- Witness for C1's amended statement on the runtime-error path. -/
theorem commandEnd_counts_per_termination_path_witness :
    countCommandEnd (processErrorCallback 0 "oops" runningDemoState).2 = 2 :=
  (commandEnd_counts_per_termination_path (okResolve fun _ => demoModule) asciiDecode
    [] "m" "oops" 0 [] initialState initialState runningDemoState runningDemoState
    initialState).2.2.2.2.2.2.2 rfl

/-- C5: a parse result with more than one statement, or whose sole statement is not
a command, makes `runCommand` write exactly one diagnostic of the form
`wapm shell: parse error (<message>)\r\n`, invoke the completion callback exactly
once, spawn nothing, and leave the state — in particular the idle running flag —
untouched. -/
theorem parse_error_path_behavior (resolve : String → Except String WasmModule)
    (parsed : List Statement) (s : RunnerState)
    (hidle : s.isRunning = false)
    (hbad : 1 < parsed.length ∨ ∃ t2, parsed = [Statement.other t2]) :
    (∃ msg, (runCommand resolve parsed s).2 =
      [Effect.termWrite ("wapm shell: parse error (" ++ msg ++ ")\r\n"),
       Effect.commandEnd])
    ∧ (runCommand resolve parsed s).1 = s
    ∧ ((runCommand resolve parsed s).1).isRunning = false
    ∧ countCommandEnd (runCommand resolve parsed s).2 = 1
    ∧ ∀ j, Effect.processStart j ∉ (runCommand resolve parsed s).2 := by
  have htb : ∃ msg, runCommandTryBlock resolve parsed = Except.error msg := by
    rcases hbad with h1 | ⟨t2, rfl⟩
    · refine ⟨"Error: Only one command permitted", ?_⟩
      unfold runCommandTryBlock
      rw [if_pos h1]
    · refine ⟨"Error: Only commands allowed", ?_⟩
      unfold runCommandTryBlock
      rw [if_neg (by simp)]
  obtain ⟨msg, hm⟩ := htb
  have hrun : runCommand resolve parsed s =
      (s, [Effect.termWrite ("wapm shell: parse error (" ++ msg ++ ")\r\n"),
           Effect.commandEnd]) := by
    unfold runCommand
    rw [hm]
  refine ⟨⟨msg, by rw [hrun]⟩, by rw [hrun], ?_, by rw [hrun]; rfl, ?_⟩
  · rw [hrun]
    exact hidle
  · intro j
    rw [hrun]
    simp

/-- Witness for C5 on the non-command statement `if`. -/
theorem parse_error_path_behavior_witness :
    (runCommand (okResolve fun _ => demoModule) [Statement.other "if"]
        initialState).1 = initialState :=
  (parse_error_path_behavior (okResolve fun _ => demoModule) [Statement.other "if"]
    initialState rfl (Or.inr ⟨"if", rfl⟩)).2.1

/-- C2 counterexample: with a rejecting resolver, `runCommand` on the single
command `a` does not let the failure escape unhandled: because the spec build is
awaited inside the same try block as the statement-shape checks, the failure takes
the local parse-failure path — a diagnostic is written and the completion callback
is invoked. -/
theorem resolution_failure_not_propagated :
    (runCommand failingResolve [Statement.command (Ast.mk "a" [] [] [])]
        initialState).2 =
      [Effect.termWrite
        "wapm shell: parse error (SpawnError: command not found)\r\n",
       Effect.commandEnd] := by
  rfl

/-- C2 amended: a resolution failure raised while the spec sequence is being built
is caught by `runCommand`'s try block exactly like the statement-shape checks: one
diagnostic `wapm shell: parse error (<resolver message>)\r\n` is written, the
completion callback is invoked, and the state is returned unchanged. -/
theorem resolution_failure_reported_as_parse_error
    (resolve : String → Except String WasmModule) (ast : Ast) (e : String)
    (s : RunnerState)
    (hres : getCommandOptionsFromAST resolve ast = Except.error e) :
    runCommand resolve [Statement.command ast] s =
      (s, [Effect.termWrite ("wapm shell: parse error (" ++ e ++ ")\r\n"),
           Effect.commandEnd]) := by
  have htb : runCommandTryBlock resolve [Statement.command ast]
      = Except.error e := by
    unfold runCommandTryBlock
    rw [if_neg (by simp)]
    exact hres
  unfold runCommand
  rw [htb]

/-- Witness for C2's amended statement with the rejecting resolver on command `a`. -/
theorem resolution_failure_reported_as_parse_error_witness :
    runCommand failingResolve [Statement.command (Ast.mk "a" [] [] [])]
        initialState =
      (initialState,
       [Effect.termWrite
          "wapm shell: parse error (SpawnError: command not found)\r\n",
        Effect.commandEnd]) := by
  have h := resolution_failure_reported_as_parse_error failingResolve
    (Ast.mk "a" [] [] []) "SpawnError: command not found" initialState (by rfl)
  exact h.trans (by rfl)

/-- C6: chunks produced by stage `i` while the next stage is unspawned are appended
to the pending buffer in production order (the buffer ends up as
`buffer ++ chunk₀ ++ chunk₁ ++ ...`), and the spawn of the next stage hands the
whole accumulated buffer, in order, to the new process object as its initial stdin
while clearing the buffer to empty in that same step. -/
theorem pending_buffer_append_and_clear (decode : Bytes → String) (i : Nat)
    (ds : List Bytes) (s : RunnerState)
    (hlive : s.spawnedProcessObjects.length ≤ 1)
    (hi : i < s.commandOptionsForProcessesToRun.length - 1) :
    (feedChunks decode i ds s).initialStdinDataForNextProcess
      = s.initialStdinDataForNextProcess ++ ds.flatten
    ∧ ∀ j s2, s2.initialStdinDataForNextProcess ≠ [] →
        ((spawnProcess j s2).1).initialStdinDataForNextProcess = []
        ∧ ((spawnProcess j s2).1).spawnedProcessObjects
            = s2.spawnedProcessObjects
              ++ [⟨j, some s2.initialStdinDataForNextProcess, false⟩] := by
  constructor
  · induction ds generalizing s with
    | nil => simp [feedChunks]
    | cons d rest ih =>
      have h1 : (processDataCallback decode i d s).1 =
          { s with initialStdinDataForNextProcess :=
              s.initialStdinDataForNextProcess ++ d } := by
        rw [processDataCallback_buffer_branch decode i d s hlive hi]
      show (feedChunks decode i rest
          ((processDataCallback decode i d s).1)).initialStdinDataForNextProcess = _
      rw [h1, ih { s with initialStdinDataForNextProcess :=
          s.initialStdinDataForNextProcess ++ d } hlive hi]
      simp

  · intro j s2 hne
    constructor
    · simp only [spawnProcess]
      rw [if_pos (List.length_pos.mpr hne)]
    · simp only [spawnProcess]
      rw [if_pos (List.length_pos.mpr hne)]

/-- Witness for C6: two chunks fed into the `a | b` mid-run state land in the
buffer behind the byte already there, in production order. -/
theorem pending_buffer_append_and_clear_witness :
    (feedChunks asciiDecode 0 [[1], [2, 3]]
        pipelineDemoState).initialStdinDataForNextProcess = [0, 1, 2, 3] := by
  have h := (pending_buffer_append_and_clear asciiDecode 0 [[1], [2, 3]]
    pipelineDemoState (by decide) (by decide)).1
  exact h.trans (by decide)

/-- C7: the last stage's chunk is decoded, newline-translated, and written to the
terminal with the state untouched; a non-last stage's chunk is forwarded
byte-for-byte to the live next process when one exists and appended byte-for-byte
to the pending buffer otherwise (no decoding, no translation); and the translation
rewrites exactly the line-feed characters to carriage-return/line-feed, leaving
every other character alone. -/
theorem data_routing_last_and_intermediate (decode : Bytes → String) (i : Nat)
    (d : Bytes) (s : RunnerState) :
    (¬ i < s.commandOptionsForProcessesToRun.length - 1 →
      processDataCallback decode i d s
        = (s, [Effect.termWrite (translateNewlines (decode d))]))
    ∧ (∀ p, i < s.commandOptionsForProcessesToRun.length - 1 →
        s.spawnedProcessObjects[1]? = some p →
        processDataCallback decode i d s = (s, [Effect.stdinChunk p.index d]))
    ∧ (i < s.commandOptionsForProcessesToRun.length - 1 →
        s.spawnedProcessObjects.length ≤ 1 →
        processDataCallback decode i d s
          = ({ s with initialStdinDataForNextProcess :=
              s.initialStdinDataForNextProcess ++ d }, []))
    ∧ (∀ cs : List Char, replaceLF (Char.ofNat 10 :: cs)
        = Char.ofNat 13 :: Char.ofNat 10 :: replaceLF cs)
    ∧ (∀ c : Char, ∀ cs : List Char, c ≠ Char.ofNat 10 →
        replaceLF (c :: cs) = c :: replaceLF cs) := by
  refine ⟨?_, ?_, ?_, ?_, ?_⟩
  · intro hlast
    unfold processDataCallback
    rw [if_neg hlast]
  · intro p hi hp
    have hlen : 1 < s.spawnedProcessObjects.length := by
      obtain ⟨hh, _⟩ := List.getElem?_eq_some.mp hp
      exact hh
    unfold processDataCallback
    rw [if_pos hi, if_pos hlen, hp]
  · intro hi hlive
    exact processDataCallback_buffer_branch decode i d s hlive hi
  · intro cs
    simp [replaceLF]
  · intro c cs hc
    rw [replaceLF, if_neg (by simpa using hc)]

/-- Witness for C7: the bytes of "hi\n" emitted by the last stage come out as the
terminal write "hi\r\n". -/
theorem data_routing_last_and_intermediate_witness :
    processDataCallback asciiDecode 0 [104, 105, 10] runningDemoState
      = (runningDemoState, [Effect.termWrite "hi\r\n"]) := by
  have h := (data_routing_last_and_intermediate asciiDecode 0 [104, 105, 10]
    runningDemoState).1 (by decide)
  exact h.trans (by decide)

end CommandRunner
